import Mathlib

/-!
Verification of the product-lookup application's business-logic layer.

The development shallowly embeds the TypeScript source:

* `src/unnamed/part_001` (the `supabase.ts` module): `calculateYearlyUses`,
  `calculateYearlyCost`;
* `src/product-lookup-app/src/app/page.tsx`: `performStructuredSearch`,
  `displayedProducts`;
* `src/product-lookup-app/src/components/CSVImport.tsx`: `transformToProduct`,
  `uploadToSupabase`;
* `src/product-lookup-app/src/components/SearchForm.tsx`: `onSubmit`;
* `src/product-lookup-app/src/lib/stores/favorites.ts`: the favorites store.

JavaScript strings are modelled through their character lists (`String.data`),
JS `number` values by `ℚ` (all numbers appearing in the claims are produced by
finite decimal literals), and the asynchronous record store by an explicit
response function supplied to each query or insert.
-/

namespace DrugTariff

/-! ### JavaScript string primitives -/

/-- JS `String.prototype.toLowerCase`, modelled characterwise. -/
def jsToLower (s : String) : String :=
  ⟨s.data.map Char.toLower⟩

/-- `startsWithList hay needle`: `needle` occurs at the head of `hay`. -/
def startsWithList : List Char → List Char → Bool
  | _, [] => true
  | [], _ :: _ => false
  | a :: as, b :: bs => a == b && startsWithList as bs

/-- `containsList hay needle`: `needle` occurs contiguously inside `hay`. -/
def containsList : List Char → List Char → Bool
  | [], needle => needle.isEmpty
  | hay@(_ :: t), needle => startsWithList hay needle || containsList t needle

/-- JS `String.prototype.includes`. -/
def jsIncludes (hay needle : String) : Bool :=
  containsList hay.data needle.data

/-- JS `String.prototype.trim`: drop whitespace from both ends. -/
def jsTrim (s : String) : String :=
  ⟨((s.data.dropWhile Char.isWhitespace).reverse.dropWhile Char.isWhitespace).reverse⟩

/-- Accumulator for `jsWords`: collects maximal runs of non-whitespace. -/
def wordsAux : List Char → List Char → List (List Char)
  | [], acc => if acc.isEmpty then [] else [acc.reverse]
  | c :: cs, acc =>
    if c.isWhitespace then
      if acc.isEmpty then wordsAux cs [] else acc.reverse :: wordsAux cs []
    else wordsAux cs (c :: acc)

/-- `s.trim().split(/\s+/).filter(word => word.length > 0)` from the source:
the list of maximal whitespace-free words of `s`. -/
def jsWords (s : String) : List String :=
  (wordsAux s.data []).map (fun cs => ⟨cs⟩)

/-- JS truthiness of an optional string: `undefined` and `""` are falsy. -/
def jsTruthy : Option String → Bool
  | none => false
  | some s => !s.data.isEmpty

/-! ### JavaScript numeric parsing -/

/-- Numeric value of a decimal digit run (most significant first). -/
def decVal (ds : List Char) : ℕ :=
  ds.foldl (fun a c => a * 10 + (c.toNat - 48)) 0

/-- Hexadecimal digit test (`0-9a-fA-F`). -/
def isHexDigitChar (c : Char) : Bool :=
  c.isDigit || ('a' ≤ c && c ≤ 'f') || ('A' ≤ c && c ≤ 'F')

/-- Numeric value of a hexadecimal digit. -/
def hexDigitVal (c : Char) : ℕ :=
  if c.isDigit then c.toNat - 48
  else if 'a' ≤ c && c ≤ 'f' then c.toNat - 97 + 10
  else c.toNat - 65 + 10

/-- Numeric value of a hexadecimal digit run. -/
def hexVal (ds : List Char) : ℕ :=
  ds.foldl (fun a c => a * 16 + hexDigitVal c) 0

/-- Magnitude part of `parseInt` after the optional sign: either a `0x`/`0X`
hexadecimal literal or a maximal decimal-digit run; no digits parse to
`none` (JS `NaN`). -/
def parseIntMag (sign : ℤ) (cs : List Char) : Option ℤ :=
  match cs with
  | '0' :: x :: rest =>
    if x = 'x' ∨ x = 'X' then
      let ds := rest.takeWhile isHexDigitChar
      if ds.isEmpty then none else some (sign * hexVal ds)
    else some (sign * decVal (cs.takeWhile Char.isDigit))
  | _ =>
    let ds := cs.takeWhile Char.isDigit
    if ds.isEmpty then none else some (sign * decVal ds)

/-- JS `parseInt` (radix argument omitted): skip leading whitespace, optional
sign, then a hexadecimal or maximal decimal digit run; `none` models `NaN`. -/
def jsParseInt (s : String) : Option ℤ :=
  match s.data.dropWhile Char.isWhitespace with
  | '+' :: rest => parseIntMag 1 rest
  | '-' :: rest => parseIntMag (-1) rest
  | cs => parseIntMag 1 cs

/-- Signed digit run of a `parseFloat` exponent. -/
def parseFloatExpSigned (cs : List Char) : ℤ :=
  match cs with
  | '+' :: r => if (r.takeWhile Char.isDigit).isEmpty then 0 else decVal (r.takeWhile Char.isDigit)
  | '-' :: r => if (r.takeWhile Char.isDigit).isEmpty then 0 else -(decVal (r.takeWhile Char.isDigit) : ℤ)
  | r => if (r.takeWhile Char.isDigit).isEmpty then 0 else decVal (r.takeWhile Char.isDigit)

/-- Exponent part of `parseFloat`: `e`/`E`, optional sign, digits; a malformed
exponent contributes `0` (JS stops before the `e`). -/
def parseFloatExp (cs : List Char) : ℤ :=
  match cs with
  | 'e' :: r => parseFloatExpSigned r
  | 'E' :: r => parseFloatExpSigned r
  | _ => 0

/-- Magnitude part of `parseFloat` after the optional sign: integer digits,
optional fraction, optional exponent; no mantissa digits parse to `none`
(JS `NaN`). Finite decimal literals only, matching the CSV numeric contract. -/
def parseFloatMag (sign : ℚ) (cs : List Char) : Option ℚ :=
  let ip := cs.takeWhile Char.isDigit
  let rest := cs.dropWhile Char.isDigit
  let fp := match rest with
    | '.' :: r => r.takeWhile Char.isDigit
    | _ => []
  let rest2 := match rest with
    | '.' :: r => r.dropWhile Char.isDigit
    | _ => rest
  if ip.isEmpty && fp.isEmpty then none
  else some (sign * ((decVal ip : ℚ) + (decVal fp : ℚ) / 10 ^ fp.length) * 10 ^ parseFloatExp rest2)

/-- JS `parseFloat`: skip leading whitespace, optional sign, decimal mantissa
with optional fraction and exponent; `none` models `NaN`. -/
def jsParseFloat (s : String) : Option ℚ :=
  match s.data.dropWhile Char.isWhitespace with
  | '+' :: rest => parseFloatMag 1 rest
  | '-' :: rest => parseFloatMag (-1) rest
  | cs => parseFloatMag 1 cs

/-- `parseFloat(text) || 0` from the source: `NaN` (and `-0`) collapse to 0. -/
def jsParseFloatOr0 (s : String) : ℚ :=
  match jsParseFloat s with
  | none => 0
  | some q => q

/-- JS `Math.round`: round half away from zero upwards, `⌊x + 1/2⌋`. -/
def jsRound (q : ℚ) : ℤ :=
  ⌊q + 1 / 2⌋

/-! ### Data model (`Product` of `supabase.ts`) -/

/-- Canonical catalog entry, the `Product` interface of `supabase.ts`.
Field names with spaces are rendered in camel case:
`"Product Name" ↦ productName`, `"sz/wt" ↦ szWt`, `"QTY" ↦ qty`,
`"UOM QTY" ↦ uomQty`, `"Order number" ↦ orderNumber`,
`"pricePounds" ↦ pricePounds`. -/
structure Product where
  id : String
  supplier : String
  category : String
  productName : String
  colour : String
  szWt : String
  qty : String
  uomQty : String
  amount : String
  orderNumber : String
  price : ℚ
  pricePounds : String
deriving DecidableEq, Repr

/-- `ProductInsert = Omit<Product, 'id' | timestamps>`. -/
structure ProductInsert where
  supplier : String
  category : String
  productName : String
  colour : String
  szWt : String
  qty : String
  uomQty : String
  amount : String
  orderNumber : String
  price : ℚ
  pricePounds : String
deriving DecidableEq, Repr

/-- `UsagePeriod = 'day' | 'week' | 'month'`. -/
inductive UsagePeriod
  | day
  | week
  | month
deriving DecidableEq, Repr

/-- `ProductUsage`: how many times the product is used per period. -/
structure ProductUsage where
  productId : String
  frequency : ℕ
  period : UsagePeriod
deriving DecidableEq, Repr

/-! ### Usage-cost calculator (`supabase.ts`) -/

/-- `calculateYearlyUses` from `supabase.ts`: annualise the usage frequency. -/
def calculateYearlyUses (usage : ProductUsage) : ℕ :=
  match usage.period with
  | .day => usage.frequency * 365
  | .week => usage.frequency * 52
  | .month => usage.frequency * 12

/-- `product["UOM QTY"] && product["UOM QTY"].toLowerCase().includes('ml')`
from `calculateYearlyCost` (the leading truthiness test short-circuits the
empty string). -/
def hasMLUnit (p : Product) : Bool :=
  !p.uomQty.data.isEmpty && jsIncludes (jsToLower p.uomQty) "ml"

/-- The per-use price computed inside `calculateYearlyCost`:
`qty = parseInt(QTY) || 0`; `price = Price / 100`;
ml-denominated products use the pack price, others divide by `qty`
unless it is zero. -/
def pricePerUse (p : Product) : ℚ :=
  let qty : ℤ := (jsParseInt p.qty).getD 0
  let price : ℚ := p.price / 100
  if hasMLUnit p then price
  else if qty = 0 then 0 else price / qty

/-- `calculateYearlyCost` from `supabase.ts`. -/
def calculateYearlyCost (p : Product) (usage : ProductUsage) : ℚ :=
  (calculateYearlyUses usage : ℚ) * pricePerUse p

/-! Claim-side restatement of the calculator (C1), written from the claim's
wording so that the proof compares two independent formulations. -/

/-- Yearly uses as the claim states them: frequency times 365 / 52 / 12. -/
def specYearlyUses (usage : ProductUsage) : ℕ :=
  usage.frequency * (match usage.period with | .day => 365 | .week => 52 | .month => 12)

/-- Per-use price as the claim states it: `Price / 100` for an `"ml"`
UOM-quantity; otherwise 0 when the pack quantity fails to parse or parses to
0, otherwise `Price / 100` divided by the parsed pack quantity. -/
def specPerUse (p : Product) : ℚ :=
  if jsIncludes (jsToLower p.uomQty) (jsToLower "ml") then p.price / 100
  else
    match jsParseInt p.qty with
    | none => 0
    | some q => if q = 0 then 0 else p.price / 100 / q

/-- Yearly cost as the claim states it. -/
def specYearlyCost (p : Product) (usage : ProductUsage) : ℚ :=
  (specYearlyUses usage : ℚ) * specPerUse p

/-- A product whose fields are all blank; concrete test inputs override the
fields of interest. -/
def blankProduct : Product :=
  { id := "", supplier := "", category := "", productName := "", colour := ""
    szWt := "", qty := "", uomQty := "", amount := "", orderNumber := ""
    price := 0, pricePounds := "" }

/-- The end-to-end example product of the claim: price 1250 (pence), pack
quantity `"5"`, a non-ml UOM. -/
def exampleProduct : Product :=
  { blankProduct with price := 1250, qty := "5", uomQty := "box" }

/-- A product with a non-ml UOM and a non-numeric pack quantity. -/
def nonNumericQtyProduct : Product :=
  { blankProduct with uomQty := "box", qty := "n/a", price := 999 }

/-! ### Sorting by product name

`[...].sort((a, b) => aName.localeCompare(bName))` on lowercased names, used
by the favorites store and the display aggregator.  `localeCompare` is
modelled as code-point lexicographic comparison, and the (since ES2019
stable) `Array.prototype.sort` as a stable insertion sort. -/

/-- Lexicographic comparison of character lists by code point. -/
def lexLe : List Char → List Char → Bool
  | [], _ => true
  | _ :: _, [] => false
  | a :: as, b :: bs =>
    if a.toNat < b.toNat then true
    else if b.toNat < a.toNat then false
    else lexLe as bs

/-- The sort key: the lowercased product name. -/
def nameKey (p : Product) : List Char :=
  p.productName.data.map Char.toLower

/-- Comparator of the favorites store and display aggregator:
`a["Product Name"].toLowerCase().localeCompare(b["Product Name"].toLowerCase()) ≤ 0`. -/
def nameLe (a b : Product) : Prop :=
  lexLe (nameKey a) (nameKey b) = true

instance : DecidableRel nameLe :=
  fun a b => decidable_of_iff (lexLe (nameKey a) (nameKey b) = true) Iff.rfl

/-- The `sort` call on product lists. -/
def sortByName (l : List Product) : List Product :=
  List.insertionSort nameLe l

/-! ### Search criteria resolver (`page.tsx`) -/

/-- The product columns referenced by the structured search. -/
inductive PField
  | supplier
  | colour
  | productName
  | orderNumber
deriving DecidableEq, Repr

/-- Column access for query predicates. -/
def fieldVal (p : Product) : PField → String
  | .supplier => p.supplier
  | .colour => p.colour
  | .productName => p.productName
  | .orderNumber => p.orderNumber

/-- A query predicate clause, per the record-store contract (spec §6): a
case-insensitive substring match (the code's `.ilike(col, `%term%`)`) or an
exact match (the code's `.eq(col, value)`). -/
inductive QueryFilter
  | substrMatch (field : PField) (term : String)
  | eqMatch (field : PField) (value : String)
deriving DecidableEq, Repr

/-- The query built by `performStructuredSearch`: a conjunction of clauses,
ordered ascending by a column, limited. -/
structure Query where
  filters : List QueryFilter
  orderByField : PField
  limit : ℕ
deriving DecidableEq, Repr

/-- `SearchCriteria` from `SearchForm.tsx`: all fields optional. -/
structure SearchCriteria where
  orderNumber : Option String
  supplier : Option String
  colour : Option String
  productName : Option String
deriving DecidableEq, Repr

/-- The query-building part of `performStructuredSearch`: order-number
priority, else product-name words, supplier and colour clauses in source
order, then `.order('"Product Name"').limit(100)`. -/
def buildQuery (c : SearchCriteria) : Query :=
  if jsTruthy c.orderNumber then
    { filters := [.substrMatch .orderNumber (c.orderNumber.getD "")]
      orderByField := .productName
      limit := 100 }
  else
    { filters :=
        (if jsTruthy c.productName then
          (jsWords (c.productName.getD "")).map (fun w => QueryFilter.substrMatch .productName w)
        else [])
        ++ (if jsTruthy c.supplier then [QueryFilter.eqMatch .supplier (c.supplier.getD "")] else [])
        ++ (if jsTruthy c.colour then [QueryFilter.eqMatch .colour (c.colour.getD "")] else [])
      orderByField := .productName
      limit := 100 }

/-- The local re-filter of `performStructuredSearch`: every (lowercased)
word of the phrase must occur in the lowercased product name. -/
def allWordsMatch (phrase : String) (p : Product) : Bool :=
  ((jsWords phrase).map jsToLower).all fun w => jsIncludes (jsToLower p.productName) w

/-- `performStructuredSearch` from `page.tsx`, with the record store's
response abstracted as a function of the issued query: run the built query,
then, for a combined search with a product-name phrase, locally re-filter the
returned rows by the all-words condition. -/
def performStructuredSearch (store : Query → List Product) (c : SearchCriteria) : List Product :=
  let data := store (buildQuery c)
  if !jsTruthy c.orderNumber && jsTruthy c.productName then
    data.filter (allWordsMatch (c.productName.getD ""))
  else data

/-- Whether a product satisfies one query clause. -/
def matchesFilter (p : Product) : QueryFilter → Bool
  | .substrMatch f term => jsIncludes (jsToLower (fieldVal p f)) (jsToLower term)
  | .eqMatch f v => fieldVal p f == v

/-- Ordering of query results by the `orderBy` column. -/
def fieldLe (f : PField) (a b : Product) : Prop :=
  lexLe (fieldVal a f).data (fieldVal b f).data = true

instance (f : PField) : DecidableRel (fieldLe f) :=
  fun a b => decidable_of_iff (lexLe (fieldVal a f).data (fieldVal b f).data = true) Iff.rfl

/-- Modelled from the spec: the external record store's
`find(predicates, orderBy, limit)` capability (spec §6); the store itself is
an out-of-scope collaborator, so its behaviour is taken from the spec's
contract: keep the rows satisfying the conjunction of clauses, ordered by the
requested column, capped at the limit. -/
def runQuery (table : List Product) (q : Query) : List Product :=
  (List.insertionSort (fieldLe q.orderByField)
    (table.filter fun p => q.filters.all (matchesFilter p))).take q.limit

/-! ### Display aggregator (`page.tsx`) -/

/-- `displayedProducts` from `page.tsx`: search-history items not in
favorites, selected items in neither favorites nor that filtered history;
their union sorted by name, then the favorites appended. -/
def displayedProducts (favorites searchHistory selectedProducts : List Product) : List Product :=
  let favoriteProducts := favorites
  let searchOnlyProducts :=
    searchHistory.filter fun sp => !favoriteProducts.any fun f => f.id == sp.id
  let popupSelectedProducts :=
    selectedProducts.filter fun sp =>
      (!favoriteProducts.any fun f => f.id == sp.id)
        && (!searchOnlyProducts.any fun q => q.id == sp.id)
  let allUnfavoritedProducts := sortByName (popupSelectedProducts ++ searchOnlyProducts)
  allUnfavoritedProducts ++ favoriteProducts

/-- Claim-side description of the display aggregator's second group: the
history products whose identifier does not appear in favorites. -/
def historyMinusFavorites (favorites searchHistory : List Product) : List Product :=
  searchHistory.filter fun p => decide (p.id ∉ favorites.map Product.id)

/-- Claim-side description of the display aggregator's first group: the
selected products whose identifier appears in neither favorites nor the
favorite-filtered history. -/
def selectedMinusBoth (favorites searchHistory selectedProducts : List Product) : List Product :=
  selectedProducts.filter fun p =>
    decide (p.id ∉ favorites.map Product.id
      ∧ p.id ∉ (historyMinusFavorites favorites searchHistory).map Product.id)

/-- Products of the worked aggregator example. -/
def prodA : Product := { blankProduct with id := "1", productName := "A" }

/-- Products of the worked aggregator example. -/
def prodB : Product := { blankProduct with id := "2", productName := "B" }

/-- Products of the worked aggregator example. -/
def prodC : Product := { blankProduct with id := "3", productName := "C" }

/-- A product whose name matches the phrase "red widget". -/
def prodRedWidget : Product :=
  { blankProduct with id := "r", productName := "Big Red widgets" }

/-- A product whose name does not match the phrase "red widget". -/
def prodBlueThing : Product :=
  { blankProduct with id := "b", productName := "Blue thing" }

/-- A product whose order code contains "ABC". -/
def prodOrder : Product :=
  { blankProduct with id := "o", orderNumber := "xxABCyy" }

/-! ### CSV normalizer (`CSVImport.tsx`) -/

/-- A raw CSV row: arbitrary header strings mapped to string values;
`none` models an absent (`undefined`/`null`) column. -/
def CSVRawRow : Type := String → Option String

/-- `getValue` from `transformToProduct`: the first alias whose value is
present and non-empty, else the default. -/
def getValue (row : CSVRawRow) (possibleKeys : List String) (defaultValue : String) : String :=
  match possibleKeys with
  | [] => defaultValue
  | key :: rest =>
    match row key with
    | some v => if v = "" then getValue row rest defaultValue else v
    | none => getValue row rest defaultValue

/-- Alias table of `transformToProduct` (supplier row). -/
def supplierAliases : List String :=
  ["Supplier", "Supplier Name", "supplier_name", "supplier"]

/-- Alias table of `transformToProduct` (category row). -/
def categoryAliases : List String :=
  ["Category", "VMP Name", "vmp_name", "VMP", "vmp", "Product Type", "product_type"]

/-- Alias table of `transformToProduct` (product-name row). -/
def productNameAliases : List String :=
  ["Product Name", "AMP Name", "amp_name", "AMP", "amp", "product_name"]

/-- Alias table of `transformToProduct` (colour row). -/
def colourAliases : List String :=
  ["Colour", "Color", "colour", "color"]

/-- Alias table of `transformToProduct` (size/weight row). -/
def szWtAliases : List String :=
  ["sz/wt", "sz / wt", "Size", "size", "Product Size", "product_size", "Weight", "weight"]

/-- Alias table of `transformToProduct` (quantity row). -/
def qtyAliases : List String :=
  ["QTY", "qty", "Quantity", "quantity", "Pack Size", "pack_size"]

/-- Alias table of `transformToProduct` (UOM-quantity row). -/
def uomQtyAliases : List String :=
  ["UOM QTY", "uom_qty", "UOM Qty", "uom qty", "Unit of Measure Qty", "unit_of_measure_qty",
    "Unit Qty", "unit_qty"]

/-- Alias table of `transformToProduct` (amount row). -/
def amountAliases : List String :=
  ["Amount", "amount"]

/-- Alias table of `transformToProduct` (order-number row). -/
def orderNumberAliases : List String :=
  ["Order number", "Prod Ord No", "prod_ord_no", "Order Code", "order_code", "Product Code",
    "product_code"]

/-- Alias table of `transformToProduct` (price row). -/
def priceAliases : List String :=
  ["Price", "price", "Cost", "cost", "Unit Price", "unit_price"]

/-- Alias table of `transformToProduct` (price-pounds row). -/
def pricePoundsAliases : List String :=
  ["pricePounds", "price_pounds", "Price Pounds", "price pounds"]

/-- `transformToProduct` from `CSVImport.tsx`: alias-resolve every canonical
field, with field-specific defaults; the price is `parseFloat(text) || 0`.
It is a total function: normalization never throws. -/
def transformToProduct (row : CSVRawRow) : ProductInsert :=
  { supplier := getValue row supplierAliases ""
    category := getValue row categoryAliases ""
    productName := getValue row productNameAliases ""
    colour := getValue row colourAliases ""
    szWt := getValue row szWtAliases ""
    qty := getValue row qtyAliases "0"
    uomQty := getValue row uomQtyAliases ""
    amount := getValue row amountAliases ""
    orderNumber := getValue row orderNumberAliases ""
    price := jsParseFloatOr0 (getValue row priceAliases "0")
    pricePounds := getValue row pricePoundsAliases "" }

/-- Claim-side alias resolution: the first alias present with a non-empty
value, if any. -/
def firstAlias (row : CSVRawRow) (keys : List String) : Option String :=
  keys.findSome? fun k =>
    match row k with
    | some v => if v = "" then none else some v
    | none => none

/-- Claim-side price: parse the first matching alias's text as a
floating-point number, defaulting to 0 on parse failure or absence. -/
def specPrice (row : CSVRawRow) : ℚ :=
  match firstAlias row priceAliases with
  | none => 0
  | some t => jsParseFloatOr0 t

/-- A row carrying only the alias `"Supplier Name"`. -/
def supplierNameRow : CSVRawRow :=
  fun k => if k = "Supplier Name" then some "Acme Ltd" else none

/-! ### Batch importer (`CSVImport.tsx`) -/

/-- The importer's chunk size. -/
def batchSize : ℕ := 100

/-- `Math.ceil(products.length / batchSize)`. -/
def totalBatches (products : List ProductInsert) : ℕ :=
  (products.length + batchSize - 1) / batchSize

/-- The chunks `products.slice(i * batchSize, (i + 1) * batchSize)` for
`i < totalBatches`. -/
def uploadChunks (products : List ProductInsert) : List (List ProductInsert) :=
  (List.range (totalBatches products)).map fun i =>
    (products.drop (i * batchSize)).take batchSize

instance : DecidableEq (Except ℕ Unit) := fun a b =>
  match a, b with
  | .ok (), .ok () => isTrue rfl
  | .error m, .error n =>
    if h : m = n then isTrue (h ▸ rfl) else isFalse fun he => h (Except.error.inj he)
  | .ok (), .error _ => isFalse fun he => Except.noConfusion he
  | .error _, .ok () => isFalse fun he => Except.noConfusion he

/-- Observable outcome of one importer run: the 1-based batch numbers
attempted in order, the rows committed by successful inserts, the reported
progress percentages, and either success or the failing batch's number (the
thrown `Batch ${i + 1} failed` error). -/
structure UploadTrace where
  attempted : List ℕ
  inserted : List ProductInsert
  progress : List ℤ
  outcome : Except ℕ Unit
deriving DecidableEq, Repr

/-- The sequential insert loop of `uploadToSupabase`; `env i` tells whether
the record store accepts the batch with 0-based index `i` (the store is an
external collaborator, so its per-batch verdict is a parameter).  On success
the progress `Math.round(((i + 1) / totalBatches) * 100)` is emitted and the
loop continues; on failure the loop aborts with the batch's number. -/
def runBatches (env : ℕ → Bool) (total : ℕ) : ℕ → List (List ProductInsert) → UploadTrace
  | _, [] => { attempted := [], inserted := [], progress := [], outcome := .ok () }
  | i, b :: rest =>
    if env i then
      let t := runBatches env total (i + 1) rest
      { attempted := (i + 1) :: t.attempted
        inserted := b ++ t.inserted
        progress := jsRound (((i : ℚ) + 1) / (total : ℚ) * 100) :: t.progress
        outcome := t.outcome }
    else
      { attempted := [i + 1], inserted := [], progress := [], outcome := .error (i + 1) }

/-- `uploadToSupabase` from `CSVImport.tsx`. -/
def uploadToSupabase (env : ℕ → Bool) (products : List ProductInsert) : UploadTrace :=
  runBatches env (totalBatches products) 0 (uploadChunks products)

/-- A blank insert record, for concrete importer runs. -/
def blankInsert : ProductInsert :=
  { supplier := "", category := "", productName := "", colour := "", szWt := ""
    qty := "", uomQty := "", amount := "", orderNumber := "", price := 0, pricePounds := "" }

/-! ### Favorites store (`stores/favorites.ts`) -/

/-- A favorite's usage record `{ frequency, period }`. -/
structure UsageEntry where
  frequency : ℕ
  period : UsagePeriod
deriving DecidableEq, Repr

/-- The state of the zustand favorites store (the `loading` flag is UI-only
and omitted). -/
structure FavoritesState where
  favorites : List Product
  favoritesWithUsage : String → Option UsageEntry
  searchHistory : List Product

/-- The store's initial state. -/
def initialState : FavoritesState :=
  { favorites := [], favoritesWithUsage := fun _ => none, searchHistory := [] }

/-- The operations exposed by the favorites store. -/
inductive StoreOp
  | addFavorite (product : Product) (usage : UsageEntry)
  | removeFavorite (productId : String)
  | updateFavoriteUsage (productId : String) (usage : UsageEntry)
  | addToSearchHistory (products : List Product)
  | removeFromSearchHistory (productId : String)
  | clearSearchHistory
  | loadFavorites
  | clearFavorites

/-- State transition of the favorites store, one case per operation, each
transcribed from `favorites.ts`. -/
def applyOp (s : FavoritesState) : StoreOp → FavoritesState
  | .addFavorite product usage =>
    { s with
      favorites := sortByName (s.favorites ++ [product])
      favoritesWithUsage := fun k =>
        if k = product.id then some usage else s.favoritesWithUsage k }
  | .removeFavorite productId =>
    { s with
      favorites := s.favorites.filter fun p => p.id != productId
      favoritesWithUsage := fun k =>
        if k = productId then none else s.favoritesWithUsage k }
  | .updateFavoriteUsage productId usage =>
    { s with
      favoritesWithUsage := fun k =>
        if k = productId then some usage else s.favoritesWithUsage k }
  | .addToSearchHistory products =>
    let existingIds := s.searchHistory.map Product.id
    { s with
      searchHistory := s.searchHistory ++ products.filter fun p => !existingIds.contains p.id }
  | .removeFromSearchHistory productId =>
    { s with searchHistory := s.searchHistory.filter fun p => p.id != productId }
  | .clearSearchHistory => { s with searchHistory := [] }
  | .loadFavorites => { s with favorites := sortByName s.favorites }
  | .clearFavorites => { s with favorites := [], favoritesWithUsage := fun _ => none }

/-- States reachable from the initial store state by any operation
sequence. -/
inductive Reachable : FavoritesState → Prop
  | init : Reachable initialState
  | step {s : FavoritesState} (op : StoreOp) : Reachable s → Reachable (applyOp s op)

/-- States reachable when every `addToSearchHistory` input has pairwise
distinct identifiers. -/
inductive ReachableDistinct : FavoritesState → Prop
  | init : ReachableDistinct initialState
  | step {s : FavoritesState} (op : StoreOp) :
    ReachableDistinct s →
    (∀ ps, op = .addToSearchHistory ps → (ps.map Product.id).Nodup) →
    ReachableDistinct (applyOp s op)

/-! ### Search form submission (`SearchForm.tsx`) -/

/-- The form values at submission time: order number and product name are
registered text inputs; supplier and colour hold the sentinel `"all"` or a
typed/selected value. -/
structure SearchFormData where
  orderNumber : Option String
  supplier : String
  colour : String
  productName : Option String

/-- `value?.trim() || undefined` from `onSubmit`. -/
def jsTrimOrUndef (o : Option String) : Option String :=
  match o with
  | none => none
  | some s => if (jsTrim s).data.isEmpty then none else some (jsTrim s)

/-- `onSubmit` from `SearchForm.tsx`: build criteria (trimming order number
and product name, mapping the `"all"` sentinel to absent), then submit only
when some field is truthy; `none` means no query is executed and the result
list is left empty (the submission is a no-op). -/
def submitSearch (d : SearchFormData) : Option SearchCriteria :=
  let criteria : SearchCriteria :=
    { orderNumber := jsTrimOrUndef d.orderNumber
      supplier := if d.supplier = "all" then none else some d.supplier
      colour := if d.colour = "all" then none else some d.colour
      productName := jsTrimOrUndef d.productName }
  if jsTruthy criteria.orderNumber || jsTruthy criteria.supplier
      || jsTruthy criteria.colour || jsTruthy criteria.productName then
    some criteria
  else none

instance : IsTotal Product nameLe where
  total a b := by
    unfold nameLe
    suffices h : ∀ x y : List Char, lexLe x y = true ∨ lexLe y x = true from h _ _
    intro x
    induction x with
    | nil => intro y; left; rfl
    | cons c cs ih =>
      intro y
      cases y with
      | nil => right; rfl
      | cons d ds =>
        by_cases h1 : c.toNat < d.toNat
        · left; simp [lexLe, h1]
        · by_cases h2 : d.toNat < c.toNat
          · right; simp [lexLe, h2, h1]
          · rcases ih ds with h | h
            · left; simp [lexLe, h1, h2, h]
            · right; simp [lexLe, h1, h2, h]

instance : IsTrans Product nameLe where
  trans a b c := by
    unfold nameLe
    suffices h : ∀ x y z : List Char,
        lexLe x y = true → lexLe y z = true → lexLe x z = true from h _ _ _
    intro x
    induction x with
    | nil => intro y z _ _; rfl
    | cons a as ih =>
      intro y z h1 h2
      cases y with
      | nil => simp [lexLe] at h1
      | cons b bs =>
        cases z with
        | nil => simp [lexLe] at h2
        | cons c cs =>
          simp only [lexLe] at h1 h2 ⊢
          by_cases hab : a.toNat < b.toNat
          · by_cases hbc : b.toNat < c.toNat
            · simp [Nat.lt_trans hab hbc]
            · by_cases hcb : c.toNat < b.toNat
              · simp [hbc, hcb] at h2
              · have hac : a.toNat < c.toNat := by omega
                simp [hac]
          · by_cases hba : b.toNat < a.toNat
            · simp [hab, hba] at h1
            · simp only [hab, hba, if_false] at h1
              by_cases hbc : b.toNat < c.toNat
              · have hac : a.toNat < c.toNat := by omega
                simp [hac]
              · by_cases hcb : c.toNat < b.toNat
                · simp [hbc, hcb] at h2
                · simp only [hbc, hcb, if_false] at h2
                  have hac1 : ¬ a.toNat < c.toNat := by omega
                  have hac2 : ¬ c.toNat < a.toNat := by omega
                  simp only [hac1, hac2, if_false]
                  exact ih bs cs h1 h2

theorem calculateYearlyUses_eq_spec (u : ProductUsage) :
    calculateYearlyUses u = specYearlyUses u := by
  rcases u with ⟨pid, f, per⟩
  cases per <;> rfl

theorem hasMLUnit_eq (p : Product) :
    hasMLUnit p = jsIncludes (jsToLower p.uomQty) "ml" := by
  unfold hasMLUnit
  cases h : p.uomQty.data with
  | nil => simp [jsIncludes, jsToLower, h, containsList]
  | cons c cs => simp [h]

theorem pricePerUse_eq_spec (p : Product) : pricePerUse p = specPerUse p := by
  unfold pricePerUse specPerUse
  rw [show jsToLower "ml" = "ml" from rfl, ← hasMLUnit_eq]
  cases hM : hasMLUnit p with
  | false =>
    simp only [hM, Bool.false_eq_true, if_false]
    cases hq : jsParseInt p.qty with
    | none => simp
    | some q => simp
  | true => simp [hM]

/-- Claim C1: for every product and usage descriptor with period in
{day, week, month}, `calculateYearlyCost` equals yearly uses (frequency
times 365 / 52 / 12) times the per-use price: the pack price `Price / 100`
when the UOM-quantity contains "ml" case-insensitively, otherwise 0 when the
pack quantity parses to 0 or fails to parse as an integer, otherwise the
pack price divided by the parsed pack quantity; and the worked example
(price 1250, pack quantity "5", non-ml UOM, 2 per week) yields 260.00. -/
theorem C1_calculateYearlyCost_spec :
    (∀ (p : Product) (u : ProductUsage), calculateYearlyCost p u = specYearlyCost p u)
    ∧ calculateYearlyCost exampleProduct ⟨"", 2, .week⟩ = 260 := by
  constructor
  · intro p u
    unfold calculateYearlyCost specYearlyCost
    rw [calculateYearlyUses_eq_spec, pricePerUse_eq_spec]
  · have h1 : hasMLUnit exampleProduct = false := by decide
    have hq : exampleProduct.qty = "5" := rfl
    have hp : exampleProduct.price = 1250 := rfl
    have h5 : jsParseInt "5" = some 5 := by decide
    simp only [calculateYearlyCost, pricePerUse, calculateYearlyUses, h1, hq, hp, h5,
      Option.getD_some]
    norm_num

/-- Claim C8: for every product whose UOM-quantity does not contain "ml" and
whose pack quantity is absent, non-numeric, or parses to 0, the per-use
price, and hence the yearly cost for any usage descriptor, is 0, with no
division by zero; `calculateYearlyCost` is a total function of its inputs,
so it never throws for malformed price or quantity text. -/
theorem C8_zero_pack_qty_zero_cost (p : Product) (u : ProductUsage)
    (hml : jsIncludes (jsToLower p.uomQty) "ml" = false)
    (hqty : (jsParseInt p.qty).getD 0 = 0) :
    pricePerUse p = 0 ∧ calculateYearlyCost p u = 0 := by
  have hM : hasMLUnit p = false := by rw [hasMLUnit_eq, hml]
  have h1 : pricePerUse p = 0 := by
    unfold pricePerUse
    simp [hM, hqty]
  exact ⟨h1, by unfold calculateYearlyCost; rw [h1, mul_zero]⟩

theorem C8_zero_pack_qty_zero_cost_witness :
    jsIncludes (jsToLower nonNumericQtyProduct.uomQty) "ml" = false
    ∧ (jsParseInt nonNumericQtyProduct.qty).getD 0 = 0
    ∧ pricePerUse nonNumericQtyProduct = 0
    ∧ calculateYearlyCost nonNumericQtyProduct ⟨"", 3, .day⟩ = 0 := by
  refine ⟨by decide, by decide, ?_⟩
  exact C8_zero_pack_qty_zero_cost nonNumericQtyProduct ⟨"", 3, .day⟩ (by decide) (by decide)

theorem getValue_eq_firstAlias (row : CSVRawRow) :
    ∀ (keys : List String) (d : String), getValue row keys d = (firstAlias row keys).getD d := by
  intro keys
  induction keys with
  | nil => intro d; rfl
  | cons k rest ih =>
    intro d
    simp only [getValue, firstAlias, List.findSome?_cons]
    cases h : row k with
    | none =>
      simp only [h]
      simpa [firstAlias] using ih d
    | some v =>
      by_cases hv : v = ""
      · simp only [h, hv, if_true, if_pos rfl]
        simpa [firstAlias] using ih d
      · simp [h, hv]

theorem jsParseFloat_zero : jsParseFloat "0" = some 0 := by
  simp +decide [jsParseFloat, parseFloatMag, parseFloatExp, parseFloatExpSigned, decVal]

theorem jsParseFloatOr0_zero : jsParseFloatOr0 "0" = 0 := by
  unfold jsParseFloatOr0
  rw [jsParseFloat_zero]

/-- Claim C5: for every raw CSV row, `transformToProduct` fills each
canonical field from the first alias in that field's ordered alias list
whose value is present and non-empty (supplier order: "Supplier",
"Supplier Name", "supplier_name", "supplier"), otherwise the field-specific
default (empty string for text, the literal "0" for quantity, numeric 0 for
price); the price is the first matching alias's text parsed as a float,
0 on parse failure or absence; normalization is a total function (never
throws); and a row carrying only "Supplier Name" populates the supplier. -/
theorem C5_transformToProduct_spec :
    (∀ row : CSVRawRow,
      transformToProduct row =
        { supplier := (firstAlias row supplierAliases).getD ""
          category := (firstAlias row categoryAliases).getD ""
          productName := (firstAlias row productNameAliases).getD ""
          colour := (firstAlias row colourAliases).getD ""
          szWt := (firstAlias row szWtAliases).getD ""
          qty := (firstAlias row qtyAliases).getD "0"
          uomQty := (firstAlias row uomQtyAliases).getD ""
          amount := (firstAlias row amountAliases).getD ""
          orderNumber := (firstAlias row orderNumberAliases).getD ""
          price := specPrice row
          pricePounds := (firstAlias row pricePoundsAliases).getD "" })
    ∧ (transformToProduct supplierNameRow).supplier = "Acme Ltd" := by
  constructor
  · intro row
    unfold transformToProduct
    simp only [getValue_eq_firstAlias, ProductInsert.mk.injEq, and_true, true_and]
    cases h : firstAlias row priceAliases with
    | none => simp [specPrice, h, jsParseFloatOr0_zero]
    | some t => simp [specPrice, h]
  · rfl

/-- Claim C9 (counterexample): a submission whose fields are all empty or
whitespace-only — order code "", supplier " ", colour "", product name "" —
does trigger a search: the whitespace-only supplier is treated as present,
so `onSubmit` is not a no-op there. -/
theorem C9_whitespace_supplier_counterexample :
    (jsTrim " ").data = [] ∧ submitSearch ⟨some "", " ", "", some ""⟩ ≠ none :=
  ⟨by decide, by decide⟩

/-- Claim C9 (amended): if the order code and product name are absent,
empty, or whitespace-only (both are trimmed before the truthiness test), and
the supplier and colour are empty or the "all" sentinel, then no
record-store query is executed and the result list stays empty: the
submission is a no-op.  The amendment is forced because a whitespace-only
supplier or colour is treated as present and does trigger a query. -/
theorem C9_empty_submission_noop (d : SearchFormData)
    (ho : d.orderNumber = none ∨ ∃ s, d.orderNumber = some s ∧ (jsTrim s).data = [])
    (hs : d.supplier = "all" ∨ d.supplier = "")
    (hc : d.colour = "all" ∨ d.colour = "")
    (hp : d.productName = none ∨ ∃ s, d.productName = some s ∧ (jsTrim s).data = []) :
    submitSearch d = none := by
  unfold submitSearch
  have h1 : jsTruthy (jsTrimOrUndef d.orderNumber) = false := by
    rcases ho with h | ⟨s, h, ht⟩
    · simp [h, jsTrimOrUndef, jsTruthy]
    · simp [h, jsTrimOrUndef, ht, jsTruthy]
  have h2 : jsTruthy (if d.supplier = "all" then none else some d.supplier) = false := by
    rcases hs with h | h <;> simp [h, jsTruthy]
  have h3 : jsTruthy (if d.colour = "all" then none else some d.colour) = false := by
    rcases hc with h | h <;> simp [h, jsTruthy]
  have h4 : jsTruthy (jsTrimOrUndef d.productName) = false := by
    rcases hp with h | ⟨s, h, ht⟩
    · simp [h, jsTrimOrUndef, jsTruthy]
    · simp [h, jsTrimOrUndef, ht, jsTruthy]
  simp [h1, h2, h3, h4]

theorem C9_empty_submission_noop_witness :
    submitSearch ⟨some " ", "all", "all", none⟩ = none :=
  C9_empty_submission_noop ⟨some " ", "all", "all", none⟩
    (Or.inr ⟨" ", rfl, by decide⟩) (Or.inl rfl) (Or.inl rfl) (Or.inl rfl)

theorem jsWords_nil_of_empty (s : String) (h : s.data = []) : jsWords s = [] := by
  simp [jsWords, h, wordsAux]

theorem truthy_some_of_ne (s : String) (hs : s.data ≠ []) : jsTruthy (some s) = true := by
  cases h : s.data with
  | nil => exact absurd h hs
  | cons c cs => simp [jsTruthy, h]

theorem truthy_of_words (phrase : String) (h : 1 ≤ (jsWords phrase).length) :
    jsTruthy (some phrase) = true := by
  refine truthy_some_of_ne phrase fun hd => ?_
  rw [jsWords_nil_of_empty phrase hd] at h
  simp at h

/-- Claim C2: for every search criteria without an order code but with a
product-name phrase of 1-3 whitespace-separated words, every product of the
returned sequence has a name containing each word of the phrase as a
case-insensitive substring, regardless of which rows the backing store
returned for the query: the resolver re-filters locally after fetching. -/
theorem C2_name_search_refilter (store : Query → List Product) (c : SearchCriteria)
    (phrase : String)
    (h1 : jsTruthy c.orderNumber = false)
    (h2 : c.productName = some phrase)
    (h3 : 1 ≤ (jsWords phrase).length)
    (h4 : (jsWords phrase).length ≤ 3) :
    ∀ p ∈ performStructuredSearch store c, ∀ w ∈ jsWords phrase,
      jsIncludes (jsToLower p.productName) (jsToLower w) = true := by
  intro p hp w hw
  have htr : jsTruthy c.productName = true := by rw [h2]; exact truthy_of_words phrase h3
  unfold performStructuredSearch at hp
  rw [h1, htr] at hp
  simp only [Bool.not_false, Bool.and_self, if_true, h2, Option.getD_some] at hp
  have hmem := List.mem_filter.mp hp
  have hall := List.all_eq_true.mp hmem.2
  exact hall (jsToLower w) (List.mem_map_of_mem _ hw)

theorem C2_name_search_refilter_witness :
    jsTruthy (⟨none, none, none, some "red widget"⟩ : SearchCriteria).orderNumber = false
    ∧ 1 ≤ (jsWords "red widget").length
    ∧ (jsWords "red widget").length ≤ 3
    ∧ ∀ p ∈ performStructuredSearch (fun _ => [prodRedWidget, prodBlueThing])
          ⟨none, none, none, some "red widget"⟩,
        ∀ w ∈ jsWords "red widget", jsIncludes (jsToLower p.productName) (jsToLower w) = true :=
  ⟨by decide, by decide, by decide,
    C2_name_search_refilter (fun _ => [prodRedWidget, prodBlueThing])
      ⟨none, none, none, some "red widget"⟩ "red widget" (by decide) rfl (by decide) (by decide)⟩

/-- Claim C6: for every criteria whose order-code field is non-empty, the
result is determined solely by the order-code field: two criteria agreeing
on the order code but differing in supplier, colour, or product name produce
identical results for any store behaviour; and against the spec's
record-store contract every returned product's order code contains the
criteria's order code as a case-insensitive substring. -/
theorem C6_order_code_determines (store : Query → List Product) (table : List Product)
    (c1 c2 : SearchCriteria) (s : String)
    (h1 : c1.orderNumber = some s) (h2 : c2.orderNumber = some s) (hs : s.data ≠ []) :
    performStructuredSearch store c1 = performStructuredSearch store c2
    ∧ ∀ p ∈ performStructuredSearch (runQuery table) c1,
        jsIncludes (jsToLower p.orderNumber) (jsToLower s) = true := by
  have htr1 : jsTruthy c1.orderNumber = true := by rw [h1]; exact truthy_some_of_ne s hs
  have htr2 : jsTruthy c2.orderNumber = true := by rw [h2]; exact truthy_some_of_ne s hs
  have hq : buildQuery c1 = buildQuery c2 := by
    unfold buildQuery
    rw [htr1, htr2, h1, h2]
    simp
  constructor
  · unfold performStructuredSearch
    rw [hq, htr1, htr2]
    simp
  · intro p hp
    have hbq : buildQuery c1 =
        { filters := [.substrMatch .orderNumber s], orderByField := .productName
          limit := 100 } := by
      unfold buildQuery
      rw [htr1, h1]
      simp
    unfold performStructuredSearch at hp
    rw [htr1] at hp
    simp only [Bool.not_true, Bool.false_and, Bool.false_eq_true, if_false] at hp
    rw [hbq] at hp
    unfold runQuery at hp
    have hp3 := (List.perm_insertionSort _ _).subset ((List.take_sublist _ _).subset hp)
    have hp4 := List.mem_filter.mp hp3
    have hone := (List.all_eq_true.mp hp4.2) (.substrMatch .orderNumber s) (by simp)
    simpa [matchesFilter, fieldVal] using hone

theorem C6_order_code_determines_witness :
    performStructuredSearch (fun _ => [prodRedWidget, prodBlueThing])
        ⟨some "ABC", some "S1", none, none⟩
      = performStructuredSearch (fun _ => [prodRedWidget, prodBlueThing])
        ⟨some "ABC", none, some "red", some "x y"⟩
    ∧ ∀ p ∈ performStructuredSearch (runQuery [prodOrder]) ⟨some "ABC", some "S1", none, none⟩,
        jsIncludes (jsToLower p.orderNumber) (jsToLower "ABC") = true :=
  C6_order_code_determines (fun _ => [prodRedWidget, prodBlueThing]) [prodOrder]
    ⟨some "ABC", some "S1", none, none⟩ ⟨some "ABC", none, some "red", some "x y"⟩ "ABC"
    rfl rfl (by decide)

theorem any_id_eq (l : List Product) (x : String) :
    (l.any fun f => f.id == x) = decide (x ∈ l.map Product.id) := by
  rw [Bool.eq_iff_iff]
  simp only [List.any_eq_true, beq_iff_eq, decide_eq_true_eq, List.mem_map]

theorem searchOnly_eq (fav hist : List Product) :
    (hist.filter fun sp => !fav.any fun f => f.id == sp.id) = historyMinusFavorites fav hist := by
  unfold historyMinusFavorites
  refine List.filter_congr fun x _ => ?_
  rw [any_id_eq, decide_not]

theorem popup_eq (fav hist sel : List Product) :
    (sel.filter fun sp =>
      (!fav.any fun f => f.id == sp.id)
        && (!(historyMinusFavorites fav hist).any fun q => q.id == sp.id))
      = selectedMinusBoth fav hist sel := by
  unfold selectedMinusBoth
  refine List.filter_congr fun x _ => ?_
  rw [any_id_eq, any_id_eq, Bool.eq_iff_iff]
  simp only [Bool.and_eq_true, Bool.not_eq_true', decide_eq_false_iff_not, decide_eq_true_eq]

theorem displayedProducts_eq (fav hist sel : List Product) :
    displayedProducts fav hist sel =
      sortByName (selectedMinusBoth fav hist sel ++ historyMinusFavorites fav hist) ++ fav := by
  simp only [displayedProducts, searchOnly_eq, popup_eq]

/-- Claim C4 (counterexample): with favorites `[B]` (sorted), history
`[A, B]`, selected `[C]`, the displayed order is `[A, C, B]`, not the
`[C, A, B]` the claim states; and with a duplicated history entry (favorites
`[]`, trivially sorted) the displayed sequence repeats an identifier, so the
no-duplicates conclusion also fails without distinctness assumptions. -/
theorem C4_display_aggregator_counterexample :
    List.Sorted nameLe [prodB]
    ∧ displayedProducts [prodB] [prodA, prodB] [prodC] ≠ [prodC, prodA, prodB]
    ∧ List.Sorted nameLe ([] : List Product)
    ∧ ¬ ((displayedProducts [] [prodA, prodA] []).map Product.id).Nodup :=
  ⟨List.sorted_singleton prodB, by decide, List.sorted_nil, by decide⟩

/-- Claim C4 (amended): for every favorites list (already sorted), history
list, and selected list, each with pairwise-distinct identifiers, the
displayed sequence is the unfavorited group — the selected products whose
identifier appears in neither favorites nor the favorite-filtered history,
together with the history products whose identifier is not in favorites,
sorted by name case-insensitively — followed by the favorites, with no
duplicate identifiers; the worked example displays `[A, C, B]` (unfavorited
alphabetical first, favorites last), not `[C, A, B]` as originally stated. -/
theorem C4_display_aggregator_amended :
    (∀ favorites searchHistory selectedProducts : List Product,
      List.Sorted nameLe favorites →
      (favorites.map Product.id).Nodup →
      (searchHistory.map Product.id).Nodup →
      (selectedProducts.map Product.id).Nodup →
      displayedProducts favorites searchHistory selectedProducts =
        sortByName (selectedMinusBoth favorites searchHistory selectedProducts
          ++ historyMinusFavorites favorites searchHistory) ++ favorites
      ∧ ((displayedProducts favorites searchHistory selectedProducts).map Product.id).Nodup)
    ∧ displayedProducts [prodB] [prodA, prodB] [prodC] = [prodA, prodC, prodB] := by
  constructor
  · intro fav hist sel hsorted hfav hhist hsel
    refine ⟨displayedProducts_eq fav hist sel, ?_⟩
    rw [displayedProducts_eq]
    rw [List.map_append]
    have hperm : ((sortByName (selectedMinusBoth fav hist sel
        ++ historyMinusFavorites fav hist)).map Product.id).Perm
        ((selectedMinusBoth fav hist sel ++ historyMinusFavorites fav hist).map Product.id) :=
      (List.perm_insertionSort _ _).map Product.id
    have hsmb : ((selectedMinusBoth fav hist sel).map Product.id).Nodup :=
      ((List.filter_sublist sel).map Product.id).nodup hsel
    have hhmf : ((historyMinusFavorites fav hist).map Product.id).Nodup :=
      ((List.filter_sublist hist).map Product.id).nodup hhist
    have hmem_smb : ∀ x ∈ (selectedMinusBoth fav hist sel).map Product.id,
        x ∉ fav.map Product.id
          ∧ x ∉ (historyMinusFavorites fav hist).map Product.id := by
      intro x hx
      rcases List.mem_map.mp hx with ⟨p, hp, rfl⟩
      have := (List.mem_filter.mp hp).2
      simpa using this
    have hmem_hmf : ∀ x ∈ (historyMinusFavorites fav hist).map Product.id,
        x ∉ fav.map Product.id := by
      intro x hx
      rcases List.mem_map.mp hx with ⟨p, hp, rfl⟩
      have := (List.mem_filter.mp hp).2
      simpa using this
    have hgroup : ((selectedMinusBoth fav hist sel
        ++ historyMinusFavorites fav hist).map Product.id).Nodup := by
      rw [List.map_append]
      refine hsmb.append hhmf ?_
      rw [List.disjoint_left]
      exact fun x hx => (hmem_smb x hx).2
    refine (hperm.symm.nodup hgroup).append hfav ?_
    rw [List.disjoint_left]
    intro x hx
    have hx2 := hperm.subset hx
    rw [List.map_append] at hx2
    rcases List.mem_append.mp hx2 with h | h
    · exact (hmem_smb x h).1
    · exact hmem_hmf x h
  · decide

theorem C4_display_aggregator_amended_witness :
    displayedProducts [prodB] [prodA, prodB] [prodC] =
      sortByName (selectedMinusBoth [prodB] [prodA, prodB] [prodC]
        ++ historyMinusFavorites [prodB] [prodA, prodB]) ++ [prodB]
    ∧ ((displayedProducts [prodB] [prodA, prodB] [prodC]).map Product.id).Nodup :=
  C4_display_aggregator_amended.1 [prodB] [prodA, prodB] [prodC]
    (List.sorted_singleton prodB) (by decide) (by decide) (by decide)

/-- Claim C7: the favorites list is sorted by product name
(case-insensitively, lexicographically) in every reachable store state:
`addFavorite` re-sorts the whole list (rather than appending) and
`loadFavorites` re-sorts the loaded list, while every other operation
preserves sortedness. -/
theorem C7_favorites_sorted_invariant :
    (∀ s, Reachable s → List.Sorted nameLe s.favorites)
    ∧ (∀ (s : FavoritesState) (p : Product) (u : UsageEntry),
        (applyOp s (.addFavorite p u)).favorites = sortByName (s.favorites ++ [p]))
    ∧ (∀ s : FavoritesState, (applyOp s .loadFavorites).favorites = sortByName s.favorites) := by
  refine ⟨?_, fun s p u => rfl, fun s => rfl⟩
  intro s hs
  induction hs with
  | init => exact List.sorted_nil
  | step op hr ih =>
    cases op with
    | addFavorite p u => exact List.sorted_insertionSort nameLe _
    | removeFavorite pid => exact ih.filter _
    | updateFavoriteUsage pid u => exact ih
    | addToSearchHistory ps => exact ih
    | removeFromSearchHistory pid => exact ih
    | clearSearchHistory => exact ih
    | loadFavorites => exact List.sorted_insertionSort nameLe _
    | clearFavorites => exact List.sorted_nil

theorem C7_favorites_sorted_invariant_witness :
    List.Sorted nameLe
      (applyOp (applyOp initialState (.addFavorite prodC ⟨1, .month⟩))
        (.addFavorite prodA ⟨2, .week⟩)).favorites :=
  C7_favorites_sorted_invariant.1 _
    (Reachable.step _ (Reachable.step _ Reachable.init))

theorem addHistory_eq (s : FavoritesState) (ps : List Product) :
    (applyOp s (.addToSearchHistory ps)).searchHistory =
      s.searchHistory ++ ps.filter fun p => decide (p.id ∉ s.searchHistory.map Product.id) := by
  show s.searchHistory ++ ps.filter _ = _
  refine congrArg _ (List.filter_congr fun p _ => ?_)
  rw [show (s.searchHistory.map Product.id).contains p.id
      = (s.searchHistory.map Product.id).elem p.id from rfl]
  rw [List.elem_eq_mem, decide_not]

/-- Claim C10: `addToSearchHistory` leaves the existing history entries
unchanged in content and order and appends, in input order, exactly those
input products whose identifier is not already present; consequently,
starting from the empty store and applying any operation sequence whose
`addToSearchHistory` inputs have pairwise distinct identifiers, the
search-history identifiers stay pairwise distinct. -/
theorem C10_search_history_invariant :
    (∀ (s : FavoritesState) (ps : List Product), (ps.map Product.id).Nodup →
      (applyOp s (.addToSearchHistory ps)).searchHistory =
        s.searchHistory ++ ps.filter fun p => decide (p.id ∉ s.searchHistory.map Product.id))
    ∧ (∀ s, ReachableDistinct s → (s.searchHistory.map Product.id).Nodup) := by
  refine ⟨fun s ps _ => addHistory_eq s ps, ?_⟩
  intro s hs
  induction hs with
  | init => exact List.nodup_nil
  | step op hr hops ih =>
    cases op with
    | addFavorite p u => exact ih
    | removeFavorite pid => exact ih
    | updateFavoriteUsage pid u => exact ih
    | addToSearchHistory ps =>
      have hps := hops ps rfl
      rw [addHistory_eq, List.map_append]
      refine ih.append (((List.filter_sublist ps).map Product.id).nodup hps) ?_
      rw [List.disjoint_left]
      intro x hx hx2
      rcases List.mem_map.mp hx2 with ⟨p, hp, rfl⟩
      exact of_decide_eq_true (List.mem_filter.mp hp).2 hx
    | removeFromSearchHistory pid =>
      exact ((List.filter_sublist _).map Product.id).nodup ih
    | clearSearchHistory => exact List.nodup_nil
    | loadFavorites => exact ih
    | clearFavorites => exact ih

theorem C10_search_history_invariant_witness :
    (([prodA, prodB].map Product.id).Nodup
    ∧ (applyOp initialState (.addToSearchHistory [prodA, prodB])).searchHistory =
        initialState.searchHistory ++ [prodA, prodB].filter
          fun p => decide (p.id ∉ initialState.searchHistory.map Product.id))
    ∧ ((applyOp initialState
        (.addToSearchHistory [prodA, prodB])).searchHistory.map Product.id).Nodup :=
  ⟨⟨by decide, C10_search_history_invariant.1 initialState [prodA, prodB] (by decide)⟩,
   C10_search_history_invariant.2 _
     (ReachableDistinct.step _ ReachableDistinct.init (fun ps h => by cases h; decide))⟩

theorem runBatches_all_success (env : ℕ → Bool) (total : ℕ) :
    ∀ (bs : List (List ProductInsert)) (i : ℕ),
      (∀ j, j < bs.length → env (i + j) = true) →
      runBatches env total i bs =
        { attempted := List.range' (i + 1) bs.length
          inserted := bs.flatten
          progress := (List.range' (i + 1) bs.length).map
            (fun (j : ℕ) => jsRound ((j : ℚ) / (total : ℚ) * 100))
          outcome := .ok () } := by
  intro bs
  induction bs with
  | nil => intro i _; simp [runBatches]
  | cons b rest ih =>
    intro i h
    have h0 : env i = true := by simpa using h 0 (Nat.succ_pos _)
    have hrec := ih (i + 1) (fun j hj => by
      have hh := h (j + 1) (by simpa using Nat.succ_lt_succ hj)
      have he : i + (j + 1) = i + 1 + j := by omega
      rwa [he] at hh)
    simp only [runBatches, h0, if_true, hrec]
    rw [List.length_cons, List.range'_succ, List.flatten_cons, List.map_cons]
    have hcast : ((i : ℚ) + 1) = ((i + 1 : ℕ) : ℚ) := by push_cast; ring
    rw [hcast]

theorem runBatches_failure (env : ℕ → Bool) (total : ℕ) :
    ∀ (bs : List (List ProductInsert)) (i k : ℕ),
      k < bs.length → env (i + k) = false → (∀ j, j < k → env (i + j) = true) →
      runBatches env total i bs =
        { attempted := List.range' (i + 1) (k + 1)
          inserted := (bs.take k).flatten
          progress := (List.range' (i + 1) k).map
            (fun (j : ℕ) => jsRound ((j : ℚ) / (total : ℚ) * 100))
          outcome := .error (i + k + 1) } := by
  intro bs
  induction bs with
  | nil => intro i k hk _ _; simp at hk
  | cons b rest ih =>
    intro i k hk hfail hsucc
    cases k with
    | zero =>
      have h0 : env i = false := by simpa using hfail
      simp [runBatches, h0, List.range'_succ]
    | succ m =>
      have h0 : env i = true := by simpa using hsucc 0 (Nat.succ_pos _)
      have hrec := ih (i + 1) m
        (by simpa using Nat.lt_of_succ_lt_succ hk)
        (by
          have he : i + (m + 1) = i + 1 + m := by omega
          have hf2 := hfail
          rw [he] at hf2
          exact hf2)
        (fun j hj => by
          have hh := hsucc (j + 1) (by omega)
          have he : i + (j + 1) = i + 1 + j := by omega
          rwa [he] at hh)
      simp only [runBatches, h0, if_true, hrec]
      rw [List.take_succ_cons, List.flatten_cons, List.range'_succ (i + 1) (m + 1),
        List.range'_succ (i + 1) m, List.map_cons]
      have hcast : ((i : ℚ) + 1) = ((i + 1 : ℕ) : ℚ) := by push_cast; ring
      rw [hcast]
      have ho : i + 1 + m + 1 = i + (m + 1) + 1 := by omega
      rw [ho]

theorem uploadChunks_length (products : List ProductInsert) :
    (uploadChunks products).length = totalBatches products := by
  simp [uploadChunks]

theorem flatten_chunks (l : List ProductInsert) (n : ℕ) :
    ((List.range n).map fun i => (l.drop (i * batchSize)).take batchSize).flatten
      = l.take (n * batchSize) := by
  induction n with
  | zero => simp
  | succ m ih =>
    rw [List.range_succ, List.map_append, List.flatten_append, ih]
    simp only [List.map_cons, List.map_nil, List.flatten_cons, List.flatten_nil, List.append_nil]
    rw [show (m + 1) * batchSize = m * batchSize + batchSize from by ring, List.take_add]

theorem uploadChunks_flatten (products : List ProductInsert) :
    (uploadChunks products).flatten = products := by
  rw [uploadChunks, flatten_chunks]
  apply List.take_of_length_le
  show products.length ≤ (products.length + 100 - 1) / 100 * 100
  omega

theorem uploadChunks_size_full (products : List ProductInsert) (i : ℕ)
    (h : i < (uploadChunks products).length) (hlast : i + 1 < totalBatches products) :
    ((uploadChunks products).get ⟨i, h⟩).length = batchSize := by
  simp only [uploadChunks, List.get_eq_getElem, List.getElem_map, List.getElem_range]
  rw [List.length_take, List.length_drop]
  have hb : i + 1 < (products.length + 100 - 1) / 100 := hlast
  show min 100 (products.length - i * 100) = 100
  omega

theorem uploadChunks_size_le (products : List ProductInsert) :
    ∀ c ∈ uploadChunks products, c.length ≤ batchSize := by
  intro c hc
  simp only [uploadChunks, List.mem_map] at hc
  rcases hc with ⟨i, hi, rfl⟩
  simp [List.length_take]

/-- Claim C3: given N > 0 normalized insert records, the importer partitions
them into `ceil(N/100)` chunks of size 100 (only the last may be smaller,
and the chunks concatenate back to the input), inserts the chunks strictly
sequentially, reports `round((i / totalChunks) * 100)` after the i-th
successful chunk, and on the first chunk failure aborts — later chunks are
never attempted, the error carries the failed chunk's (1-based) number, and
rows inserted by prior chunks remain committed. -/
theorem C3_batch_importer (products : List ProductInsert) (env : ℕ → Bool)
    (hN : 0 < products.length) :
    (uploadChunks products).length = (products.length + batchSize - 1) / batchSize
    ∧ (uploadChunks products).flatten = products
    ∧ (∀ (i : ℕ) (h : i < (uploadChunks products).length), i + 1 < totalBatches products →
        ((uploadChunks products).get ⟨i, h⟩).length = batchSize)
    ∧ (∀ c ∈ uploadChunks products, c.length ≤ batchSize)
    ∧ ((∀ j, j < totalBatches products → env j = true) →
        uploadToSupabase env products =
          { attempted := List.range' 1 (totalBatches products)
            inserted := products
            progress := (List.range' 1 (totalBatches products)).map
              (fun (j : ℕ) => jsRound ((j : ℚ) / (totalBatches products : ℚ) * 100))
            outcome := .ok () })
    ∧ (∀ k, k < totalBatches products → env k = false → (∀ j, j < k → env j = true) →
        uploadToSupabase env products =
          { attempted := List.range' 1 (k + 1)
            inserted := ((uploadChunks products).take k).flatten
            progress := (List.range' 1 k).map
              (fun (j : ℕ) => jsRound ((j : ℚ) / (totalBatches products : ℚ) * 100))
            outcome := .error (k + 1) }) := by
  refine ⟨uploadChunks_length products, uploadChunks_flatten products,
    uploadChunks_size_full products, uploadChunks_size_le products, ?_, ?_⟩
  · intro hall
    unfold uploadToSupabase
    rw [runBatches_all_success env (totalBatches products) (uploadChunks products) 0
      (fun j hj => by
        rw [Nat.zero_add]
        exact hall j (by rwa [uploadChunks_length] at hj))]
    rw [uploadChunks_flatten, uploadChunks_length]
  · intro k hk hfail hsucc
    unfold uploadToSupabase
    rw [runBatches_failure env (totalBatches products) (uploadChunks products) 0 k
      (by rwa [uploadChunks_length]) (by rwa [Nat.zero_add])
      (fun j hj => by rw [Nat.zero_add]; exact hsucc j hj)]
    simp [Nat.zero_add]

theorem C3_batch_importer_witness :
    0 < (List.replicate 250 blankInsert).length
    ∧ (uploadChunks (List.replicate 250 blankInsert)).length = 3
    ∧ uploadToSupabase (fun i => decide (i ≠ 1)) (List.replicate 250 blankInsert) =
        { attempted := List.range' 1 2
          inserted := ((uploadChunks (List.replicate 250 blankInsert)).take 1).flatten
          progress := (List.range' 1 1).map
            (fun (j : ℕ) => jsRound ((j : ℚ)
              / ((totalBatches (List.replicate 250 blankInsert)) : ℚ) * 100))
          outcome := .error 2 } := by
  have h := C3_batch_importer (List.replicate 250 blankInsert) (fun i => decide (i ≠ 1))
    (by rw [List.length_replicate]; norm_num)
  refine ⟨by rw [List.length_replicate]; norm_num, ?_, ?_⟩
  · rw [h.1]; norm_num [batchSize, List.length_replicate]
  · exact h.2.2.2.2.2 1 (by norm_num [totalBatches, batchSize, List.length_replicate]) (by decide)
      (fun j hj => by
        have hj0 : j = 0 := by omega
        subst hj0
        decide)

end DrugTariff
